import Mathlib

/-!
Verification of `src/examples/data/abc207_b.solver.cpp`.

The program is a single pure function `solve` over `int64_t` plus I/O glue
in `main`.  We embed `solve` over unbounded integers (C++ `/` on signed
integers truncates toward zero, which is `Int.tdiv`), a second version
`solve64` over wrap-around 64-bit arithmetic, a division-checked version
`solveChecked`, and a model of `main` as a function from the stdin text to
the pair (stdout text, exit code).
-/

/-- Embedding of `solve` from `abc207_b.solver.cpp` over unbounded integers.
The source initialises `ans = -1`, overwrites it with
`(A + D*C - B - 1) / (D*C - B)` when `D*C - B > 0`, and returns `ans`;
C++ signed division truncates toward zero (`Int.tdiv`). -/
def solve (A B C D : Int) : Int :=
  if D * C - B > 0 then Int.tdiv (A + D * C - B - 1) (D * C - B) else -1

/-- `solve` with the C++ division-by-zero error made explicit: the division
returns `none` when its divisor is zero, everything else is as in `solve`. -/
def solveChecked (A B C D : Int) : Option Int :=
  if D * C - B > 0 then
    if D * C - B = 0 then none
    else some (Int.tdiv (A + D * C - B - 1) (D * C - B))
  else some (-1)

/-- Reduction of an unbounded integer into the signed 64-bit range
`[-2^63, 2^63)`, i.e. two's-complement wrap-around. -/
def wrap64 (x : Int) : Int :=
  (x + 9223372036854775808) % 18446744073709551616 - 9223372036854775808

/-- `x` is representable as a signed 64-bit integer. -/
def inRange64 (x : Int) : Prop :=
  -9223372036854775808 ≤ x ∧ x ≤ 9223372036854775807

instance (x : Int) : Decidable (inRange64 x) := by
  unfold inRange64; infer_instance

/-- Embedding of `solve` with every `int64_t` operation performed in
wrap-around 64-bit arithmetic, following the evaluation order of the
source expression `(A + D*C - B - 1) / (D*C - B)`. -/
def solve64 (A B C D : Int) : Int :=
  let dc := wrap64 (D * C)
  let denom := wrap64 (dc - B)
  if denom > 0 then
    wrap64 (Int.tdiv (wrap64 (wrap64 (wrap64 (A + dc) - B) - 1)) denom)
  else -1

/-- C++ whitespace as classified by `std::isspace` in the default locale,
which `std::cin >>` skips between tokens. -/
def isCppSpace (c : Char) : Bool :=
  c = ' ' || c = '\t' || c = '\n' || c = '\x0b' || c = '\x0c' || c = '\r'

/-- Splitting a character list at C++ whitespace; `acc` holds the reversed
characters of the token currently being read. -/
def splitWs : List Char → List Char → List (List Char)
  | [], acc => if acc = [] then [] else [acc.reverse]
  | c :: cs, acc =>
    if isCppSpace c then
      (if acc = [] then [] else [acc.reverse]) ++ splitWs cs []
    else splitWs cs (c :: acc)

/-- The whitespace-separated tokens of the standard-input text. -/
def tokens (s : String) : List (List Char) := splitWs s.data []

/-- Accumulating decimal digit parse; fails on a non-digit character. -/
def digitsToNat : List Char → Nat → Option Nat
  | [], acc => some acc
  | c :: cs, acc =>
    if c.isDigit then digitsToNat cs (acc * 10 + (c.toNat - 48)) else none

/-- Modelled from the spec: parsing one token as a signed decimal integer,
as `std::cin >>` does for `int64_t` (an optional sign followed by digits). -/
def parseInt (t : List Char) : Option Int :=
  match t with
  | [] => none
  | '-' :: cs =>
    if cs = [] then none else (digitsToNat cs 0).map (fun n => -(n : Int))
  | '+' :: cs =>
    if cs = [] then none else (digitsToNat cs 0).map (fun n => (n : Int))
  | cs => (digitsToNat cs 0).map (fun n => (n : Int))

/-- Modelled from the spec: the I/O behaviour of `main` (stream extraction
`std::cin >> A >> B >> C >> D`, printing `ans` and `'\n'`, `return 0`),
as a function from the stdin text to `(stdout text, exit code)`, `none`
when the input does not provide four parseable integers. -/
def mainRun (stdin : String) : Option (String × Nat) :=
  match tokens stdin with
  | ta :: tb :: tc :: td :: _ =>
    (parseInt ta).bind fun A =>
    (parseInt tb).bind fun B =>
    (parseInt tc).bind fun C =>
    (parseInt td).bind fun D =>
    some (toString (solve A B C D) ++ "\n", 0)
  | _ => none

/-- With a positive divisor `d`, `(A + d - 1).tdiv d * d` is at least `A`,
for every `A` (truncation toward zero only rounds upward past the floor). -/
lemma tdiv_ceil_ge (A d : Int) (hd : 0 < d) :
    A ≤ (A + d - 1).tdiv d * d := by
  rcases le_or_lt 0 (A + d - 1) with hnum | hnum
  · rw [Int.tdiv_eq_ediv hnum (le_of_lt hd)]
    have h1 := Int.ediv_add_emod (A + d - 1) d
    have h2 := Int.emod_nonneg (A + d - 1) (ne_of_gt hd)
    have h3 := Int.emod_lt_of_pos (A + d - 1) hd
    rw [mul_comm]
    linarith
  · set m : Int := -(A + d - 1) with hm
    have hA : A + d - 1 = -m := by omega
    rw [hA, Int.neg_tdiv, Int.tdiv_eq_ediv (by omega) (le_of_lt hd)]
    have h1 := Int.ediv_add_emod m d
    have h2 := Int.emod_nonneg m (ne_of_gt hd)
    have h3 := Int.emod_lt_of_pos m hd
    have h4 : 0 ≤ m / d := Int.ediv_nonneg (by omega) (le_of_lt hd)
    rw [neg_mul, mul_comm]
    linarith

/-- With a positive divisor `d` and nonnegative `A`,
`q = (A + d - 1).tdiv d` is the ceiling of `A / d`: `q * d ≥ A` and
`(q - 1) * d < A`. -/
lemma tdiv_ceil_spec (A d : Int) (hd : 0 < d) (hA : 0 ≤ A) :
    A ≤ (A + d - 1).tdiv d * d ∧ ((A + d - 1).tdiv d - 1) * d < A := by
  have hnum : 0 ≤ A + d - 1 := by omega
  rw [Int.tdiv_eq_ediv hnum (le_of_lt hd)]
  have h1 := Int.ediv_add_emod (A + d - 1) d
  have h2 := Int.emod_nonneg (A + d - 1) (ne_of_gt hd)
  have h3 := Int.emod_lt_of_pos (A + d - 1) hd
  constructor
  · rw [mul_comm]; linarith
  · rw [sub_mul, mul_comm]; linarith

lemma wrap64_eq_self {x : Int} (h : inRange64 x) : wrap64 x = x := by
  unfold inRange64 at h; unfold wrap64; omega

lemma wrap64_sub (x y : Int) : wrap64 (wrap64 x - y) = wrap64 (x - y) := by
  unfold wrap64; omega

/-- A truncating quotient by a positive divisor stays in the 64-bit range
when the dividend is in range. -/
lemma tdiv_inRange64 {n d : Int} (hd : 0 < d) (hn : inRange64 n) :
    inRange64 (n.tdiv d) := by
  unfold inRange64 at *
  rcases le_or_lt 0 n with h0 | h0
  · have hnn : 0 ≤ n.tdiv d := Int.tdiv_nonneg h0 (le_of_lt hd)
    have hle : n.tdiv d ≤ n := by
      rw [Int.tdiv_eq_ediv h0 (le_of_lt hd)]
      exact Int.ediv_le_self d h0
    omega
  · have hrw : n = -(-n) := by omega
    rw [hrw, Int.neg_tdiv]
    have hnn : 0 ≤ (-n).tdiv d := Int.tdiv_nonneg (by omega) (le_of_lt hd)
    have hle : (-n).tdiv d ≤ -n := by
      rw [Int.tdiv_eq_ediv (by omega) (le_of_lt hd)]
      exact Int.ediv_le_self d (by omega)
    omega

/-- Claim C1 (counterexample): the claimed minimality of ceiling division
fails as stated over all signed integers: at A = -4, B = 0, C = 1, D = 3 the
denominator 3*1 - 0 is positive, yet (solve(-4,0,1,3) - 1) * 3 < -4 is false
(C++ truncation toward zero gives solve(-4,0,1,3) = 0, not the ceiling -1). -/
theorem solve_ceil_min_counterexample :
    ((3 : Int) * 1 - 0 > 0) ∧ ¬ ((solve (-4) 0 1 3 - 1) * (3 * 1 - 0) < -4) := by
  decide

/-- Claim C1 (amended): for all signed integers A, B, C, D with D*C - B > 0,
solve(A,B,C,D) * (D*C - B) >= A; and if additionally A >= 0, then also
(solve(A,B,C,D) - 1) * (D*C - B) < A (minimality of ceiling division). -/
theorem solve_ceil_min (A B C D : Int) (h : D * C - B > 0) :
    A ≤ solve A B C D * (D * C - B) ∧
      (0 ≤ A → (solve A B C D - 1) * (D * C - B) < A) := by
  have hrw : solve A B C D = (A + (D * C - B) - 1).tdiv (D * C - B) := by
    unfold solve; rw [if_pos h]; congr 1; ring
  rw [hrw]
  exact ⟨tdiv_ceil_ge A (D * C - B) h, fun hA => (tdiv_ceil_spec A (D * C - B) h hA).2⟩

theorem solve_ceil_min_witness :
    ((10 : Int) ≤ solve 10 2 3 4 * (4 * 3 - 2)) ∧
      (0 ≤ (10 : Int) → (solve 10 2 3 4 - 1) * (4 * 3 - 2) < 10) :=
  solve_ceil_min 10 2 3 4 (by decide)

/-- Claim C2: for all signed integers A, B, C, D with D*C - B <= 0
(zero included), solve(A,B,C,D) returns the sentinel -1. -/
theorem solve_sentinel (A B C D : Int) (h : D * C - B ≤ 0) :
    solve A B C D = -1 := by
  unfold solve; rw [if_neg (by omega)]

theorem solve_sentinel_witness : solve 1 5 1 1 = -1 :=
  solve_sentinel 1 5 1 1 (by decide)

/-- Claim C3: for all signed integers A, B, C, D, with denom = D*C - B, if
denom > 0 then solve(A,B,C,D) = (A + denom - 1) / denom with truncating
(round-toward-zero) integer division. -/
theorem solve_formula (A B C D : Int) (h : D * C - B > 0) :
    solve A B C D = Int.tdiv (A + (D * C - B) - 1) (D * C - B) := by
  unfold solve; rw [if_pos h]; congr 1; ring

theorem solve_formula_witness :
    solve 10 2 3 4 = Int.tdiv (10 + (4 * 3 - 2) - 1) (4 * 3 - 2) :=
  solve_formula 10 2 3 4 (by decide)

/-- Claim C4: the concrete scenarios hold: solve(10,2,3,4) = 1,
solve(0,0,1,1) = 0, and solve(1,0,0,0) = -1 (denom exactly 0 is treated as
not-positive). -/
theorem solve_concrete :
    solve 10 2 3 4 = 1 ∧ solve 0 0 1 1 = 0 ∧ solve 1 0 0 0 = -1 := by
  decide

/-- Claim C5: for signed 64-bit inputs such that D*C, D*C - B, and
A + D*C - B - 1 are each representable in signed 64 bits, solve evaluated
with wrap-around 64-bit arithmetic agrees with solve over unbounded
integers. -/
theorem solve64_eq_solve (A B C D : Int)
    (hA : inRange64 A) (hB : inRange64 B) (hC : inRange64 C)
    (hD : inRange64 D) (h1 : inRange64 (D * C)) (h2 : inRange64 (D * C - B))
    (h3 : inRange64 (A + D * C - B - 1)) :
    solve64 A B C D = solve A B C D := by
  simp only [solve64, solve, wrap64_eq_self h1, wrap64_eq_self h2, wrap64_sub,
    wrap64_eq_self h3]
  by_cases hpos : D * C - B > 0
  · rw [if_pos hpos, if_pos hpos, wrap64_eq_self (tdiv_inRange64 hpos h3)]
  · rw [if_neg hpos, if_neg hpos]

theorem solve64_eq_solve_witness : solve64 10 2 3 4 = solve 10 2 3 4 :=
  solve64_eq_solve 10 2 3 4 (by decide) (by decide) (by decide) (by decide)
    (by decide) (by decide) (by decide)

/-- Claim C6: solve is total and never divides by zero: the checked variant,
whose division returns none on a zero divisor, returns some (solve A B C D)
on every input. -/
theorem solveChecked_total (A B C D : Int) :
    solveChecked A B C D = some (solve A B C D) := by
  unfold solveChecked solve
  by_cases h : D * C - B > 0
  · rw [if_pos h, if_pos h, if_neg (by omega)]
  · rw [if_neg h, if_neg h]

/-- Claim C7: for a well-formed standard input whose first four
whitespace-separated tokens parse as signed integers A, B, C, D, the program
writes exactly one line, the decimal representation of solve(A,B,C,D)
followed by a newline, and exits with code 0. -/
theorem mainRun_output (s : String) (A B C D : Int) (ta tb tc td : List Char)
    (rest : List (List Char)) (ht : tokens s = ta :: tb :: tc :: td :: rest)
    (ha : parseInt ta = some A) (hb : parseInt tb = some B)
    (hc : parseInt tc = some C) (hd : parseInt td = some D) :
    mainRun s = some (toString (solve A B C D) ++ "\n", 0) := by
  unfold mainRun
  rw [ht]
  simp only [ha, hb, hc, hd, Option.some_bind]

theorem mainRun_output_witness :
    mainRun "10 2 3 4" = some (toString (solve 10 2 3 4) ++ "\n", 0) :=
  mainRun_output "10 2 3 4" 10 2 3 4 ['1', '0'] ['2'] ['3'] ['4'] []
    (by rfl) (by rfl) (by rfl) (by rfl) (by rfl)

/-- Claim C8: for all signed integers A, B, C, D with A >= 0 and
D*C - B > 0, solve(A,B,C,D) is exactly the smallest integer q with
q * (D*C - B) >= A. -/
theorem solve_is_least (A B C D : Int) (hA : 0 ≤ A) (h : D * C - B > 0) :
    A ≤ solve A B C D * (D * C - B) ∧
      ∀ q : Int, A ≤ q * (D * C - B) → solve A B C D ≤ q := by
  have hrw : solve A B C D = (A + (D * C - B) - 1).tdiv (D * C - B) := by
    unfold solve; rw [if_pos h]; congr 1; ring
  have hs := tdiv_ceil_spec A (D * C - B) h hA
  rw [hrw]
  refine ⟨hs.1, fun q hq => ?_⟩
  by_contra hlt
  push_neg at hlt
  have hle : q ≤ (A + (D * C - B) - 1).tdiv (D * C - B) - 1 := by omega
  have h2 : q * (D * C - B) ≤
      ((A + (D * C - B) - 1).tdiv (D * C - B) - 1) * (D * C - B) :=
    mul_le_mul_of_nonneg_right hle (le_of_lt h)
  linarith [hs.2]

theorem solve_is_least_witness :
    ((100 : Int) ≤ solve 100 0 2 3 * (3 * 2 - 0)) ∧
      ∀ q : Int, (100 : Int) ≤ q * (3 * 2 - 0) → solve 100 0 2 3 ≤ q :=
  solve_is_least 100 0 2 3 (by decide) (by decide)

/-- Claim C9: the sentinel -1 is ambiguous: there are inputs with
D*C - B > 0 on which solve still returns -1 (e.g. A = -1, B = 0, C = 1,
D = 1), so a -1 result does not imply D*C - B <= 0. -/
theorem solve_sentinel_ambiguous :
    ∃ A B C D : Int, D * C - B > 0 ∧ solve A B C D = -1 :=
  ⟨-1, 0, 1, 1, by decide⟩

/-- Claim C10: solve is symmetric in its last two arguments, since it
depends on C and D only through the product D*C. -/
theorem solve_comm_last_two (A B C D : Int) :
    solve A B C D = solve A B D C := by
  unfold solve; rw [mul_comm C D]
